import Mathlib

/-!
# Verification of the demoterm capture/replay core

Shallow embedding of `src/main.rs` of the `demoterm` terminal recorder:
the `TerminalEvent` data model, the replay loop of `generate_gif`, the
JSON persistence format (modelled at the structural level of the
serde data model), the capture-thread step functions of `run_recorder`,
the periodic checkpoint thread, and the stop sequence.
-/

namespace Demoterm

/-- `TerminalEvent` from `main.rs` (lines 43-48): a timestamp in
milliseconds since start (`u128`, modelled as `Nat`) and two optional
payload slots. -/
structure TerminalEvent where
  timestamp : Nat
  input : Option String
  output : Option String
  deriving Repr, DecidableEq

/-- An event carries exactly one payload kind (the data-model invariant:
exactly one of `input` / `output` is populated). -/
def exactlyOnePayload (e : TerminalEvent) : Bool :=
  (e.input.isSome && e.output.isNone) || (e.input.isNone && e.output.isSome)

/-- The text this event contributes to the screen, in the order the
replay loop of `generate_gif` applies it: the `input` slot first, then
the `output` slot (lines 296-301). For a well-formed event (exactly one
slot populated) this is the event's unique payload. -/
def eventPayload (e : TerminalEvent) : String :=
  e.input.getD "" ++ e.output.getD ""

/-- One iteration of the replay loop of `generate_gif` (lines 295-301):
append the `input` payload to the screen buffer if present, then the
`output` payload if present. -/
def replayStep (screen : String) (e : TerminalEvent) : String :=
  let screen :=
    match e.input with
    | some s => screen ++ s
    | none => screen
  match e.output with
  | some s => screen ++ s
  | none => screen

/-- The sequence of screen buffers produced by the replay loop starting
from buffer `screen`: one `ScreenState` per event, in log order. -/
def replayAux (screen : String) : List TerminalEvent → List String
  | [] => []
  | e :: rest =>
    let s := replayStep screen e
    s :: replayAux s rest

/-- Replay of an event log: `generate_gif` initialises `screen` to the
empty string (line 292) and renders one frame per event from the
successive buffer contents. -/
def replay (log : List TerminalEvent) : List String :=
  replayAux "" log

/-- Concatenation, in log order, of the payload contributions of a list
of events. -/
def concatPayloads (log : List TerminalEvent) : String :=
  log.foldl (fun acc e => acc ++ eventPayload e) ""

/-! ## JSON persistence format

The on-disk recording is `serde_json::to_string` of `Vec<TerminalEvent>`
and its parse (`main.rs` lines 239, 257, 270). We model JSON at the
structural level (the serde data model): an array of objects with the
derived field order `timestamp`, `input`, `output`, where `Option<String>`
serialises to `null` or a string. String-level lexing belongs to the
external `serde_json` library. -/

/-- Structural JSON values. -/
inductive Json where
  | null
  | str (s : String)
  | num (n : Nat)
  | arr (items : List Json)
  | obj (fields : List (String × Json))
  deriving Repr

/-- Serialisation of an `Option<String>` field per serde: `None ↦ null`,
`Some s ↦ s`. -/
def encodeOptStr : Option String → Json
  | none => Json.null
  | some s => Json.str s

/-- Serialisation of one `TerminalEvent` per the derived `Serialize`
implementation: an object with fields in declaration order. -/
def encodeEvent (e : TerminalEvent) : Json :=
  Json.obj
    [("timestamp", Json.num e.timestamp),
     ("input", encodeOptStr e.input),
     ("output", encodeOptStr e.output)]

/-- Serialisation of the whole event log: a JSON array in log order. -/
def encode (log : List TerminalEvent) : Json :=
  Json.arr (log.map encodeEvent)

/-- Field lookup in a JSON object, first occurrence wins. -/
def lookupField (fields : List (String × Json)) (key : String) : Option Json :=
  (fields.find? (fun p => p.1 == key)).map (fun p => p.2)

/-- Deserialisation of an `Option<String>` field: `null` or a string is
accepted, anything else is a type error. -/
def decodeOptStr : Json → Option (Option String)
  | Json.null => some none
  | Json.str s => some (some s)
  | _ => none

/-- Deserialisation of one `TerminalEvent` per the derived `Deserialize`
implementation: requires a `timestamp` number; an `input` or `output`
field may be `null` or a string, and an absent `Option` field defaults
to `None`. Nothing enforces that exactly one of the two payload slots is
populated. -/
def decodeEvent (j : Json) : Option TerminalEvent :=
  match j with
  | Json.obj fields => do
    let tj ← lookupField fields "timestamp"
    let t ←
      match tj with
      | Json.num n => some n
      | _ => none
    let inp ←
      match lookupField fields "input" with
      | none => some none
      | some v => decodeOptStr v
    let out ←
      match lookupField fields "output" with
      | none => some none
      | some v => decodeOptStr v
    pure ⟨t, inp, out⟩
  | _ => none

/-- Deserialisation of the whole log: a JSON array whose every element
decodes, in order. -/
def decode (j : Json) : Option (List TerminalEvent) :=
  match j with
  | Json.arr items => items.mapM decodeEvent
  | _ => none

/-! ## Recorder state machine

`run_recorder` (lines 137-264) shares one `Mutex<Vec<TerminalEvent>>`
between a reader thread (subprocess output), a writer thread (user
input), a checkpoint thread, and the control loop. We model each thread's
loop body as a step function over explicit state, together with an action
trace that records the order of externally visible effects. -/

/-- Whether the recorded subprocess (the `/bin/bash` shell under the pty)
is still running. -/
inductive ProcState where
  | running
  | exited
  deriving Repr, DecidableEq

/-- Errors of the stop sequence of `run_recorder` (lines 249-263), each
corresponding to a `?`-propagated failure. -/
inductive StopError where
  | terminationFailure
  | persistFailure
  | removeFailure
  deriving Repr, DecidableEq

/-- Externally visible steps of the stop sequence, in the order
performed. -/
inductive StopAction where
  | kill
  | wait
  | snapshot
  | persist
  | removeHandle
  deriving Repr, DecidableEq

/-- State touched by the stop sequence: the subprocess, the in-memory
event log, the recording file (`/tmp/demoterm_recording.json`, `none` =
absent) and the pid file (`/tmp/demoterm.pid`, the SessionHandle;
`false` = absent). -/
structure RecState where
  proc : ProcState
  events : List TerminalEvent
  recordingFile : Option Json
  pidFile : Bool

/-- `shell.kill()` (line 250). Killing a running process succeeds or
fails with the OS outcome `killOk`. Modelled from the spec: signalling a
subprocess that has already exited (a zombie child not yet reaped by
`wait`) is a no-op success — the exited branch of the external
`portable_pty` child is not in the source. -/
def killSubprocess (killOk : Bool) : ProcState → Except StopError ProcState
  | ProcState.exited => Except.ok ProcState.exited
  | ProcState.running =>
    if killOk then Except.ok ProcState.exited
    else Except.error StopError.terminationFailure

/-- Result of the stop sequence: the state left behind, the error if any
(`none` = success), and the trace of performed steps. -/
structure StopResult where
  state : RecState
  err : Option StopError
  trace : List StopAction

/-- The stop sequence of `run_recorder` (lines 249-263): `shell.kill()?`,
`shell.wait()` (result ignored), lock and read out the event log,
serialise and write it to the recording file (`?`-propagated), then
remove the pid file (`?`-propagated). `persistOk` and `removeOk` are the
OS outcomes of the two file operations. -/
def stopSequence (killOk persistOk removeOk : Bool) (st : RecState) :
    StopResult :=
  match killSubprocess killOk st.proc with
  | Except.error e => ⟨st, some e, [StopAction.kill]⟩
  | Except.ok p =>
    let st1 : RecState := { st with proc := p }
    let snap := st1.events
    if persistOk then
      let st2 : RecState := { st1 with recordingFile := some (encode snap) }
      if removeOk then
        ⟨{ st2 with pidFile := false }, none,
         [StopAction.kill, StopAction.wait, StopAction.snapshot,
          StopAction.persist, StopAction.removeHandle]⟩
      else
        ⟨st2, some StopError.removeFailure,
         [StopAction.kill, StopAction.wait, StopAction.snapshot,
          StopAction.persist, StopAction.removeHandle]⟩
    else
      ⟨st1, some StopError.persistFailure,
       [StopAction.kill, StopAction.wait, StopAction.snapshot,
        StopAction.persist]⟩

/-- Externally visible effects of one capture-thread loop iteration. -/
inductive IOAction where
  | forwardToPty (bytes : List UInt8)
  | appendEvent (e : TerminalEvent)
  | writeFailed
  deriving Repr, DecidableEq

/-- State shared by the capture threads: all bytes forwarded to the pty
writer so far, and the mutex-guarded event log. -/
structure CaptureState where
  ptyInput : List UInt8
  events : List TerminalEvent

/-- One iteration of the writer thread's loop for a chunk read from
stdin (lines 210-227, the `Ok(n)` branch with `n > 0`): first
`writer.write_all(&buffer[..n])` forwards the bytes verbatim to the pty;
on write failure the loop breaks without touching the log; otherwise one
Input-tagged event is appended, its payload the lossy decoding of the
chunk (`decodeBytes` stands for the external `String::from_utf8_lossy`)
and its timestamp the capture-time clock reading `now`. -/
def inputStep (decodeBytes : List UInt8 → String) (now : Nat)
    (chunk : List UInt8) (writeOk : Bool) (st : CaptureState) :
    CaptureState × List IOAction :=
  if writeOk then
    let e : TerminalEvent := ⟨now, some (decodeBytes chunk), none⟩
    (⟨st.ptyInput ++ chunk, st.events ++ [e]⟩,
     [IOAction.forwardToPty chunk, IOAction.appendEvent e])
  else
    (st, [IOAction.writeFailed])

/-- One iteration of the reader thread's loop for a chunk read from the
pty (lines 183-195, the `Ok(n)` branch with `n > 0`): one Output-tagged
event is appended, its payload the lossy decoding of the chunk and its
timestamp the capture-time clock reading `now`. -/
def outputStep (decodeBytes : List UInt8 → String) (now : Nat)
    (chunk : List UInt8) (st : CaptureState) :
    CaptureState × List IOAction :=
  let e : TerminalEvent := ⟨now, none, some (decodeBytes chunk)⟩
  (⟨st.ptyInput, st.events ++ [e]⟩, [IOAction.appendEvent e])

/-- Steps of one checkpoint-thread iteration relative to the event-log
mutex. -/
inductive LockAction where
  | lockAcquire
  | serialize
  | diskWrite
  | lockRelease
  deriving Repr, DecidableEq

/-- One iteration of the checkpoint thread's loop (lines 233-242): sleep,
then `save_events.lock()`; if the log is empty, `continue` (the guard is
dropped); otherwise `serde_json::to_string` of the guarded data followed
by `fs::write` of the recording file, with the write's result ignored
(`writeOk` is the OS outcome); the guard is dropped only at the end of
the iteration, after the write. Returns the recording file afterwards
and the trace of steps. -/
def checkpointStep (writeOk : Bool) (events : List TerminalEvent)
    (recFile : Option Json) : Option Json × List LockAction :=
  if events.isEmpty then
    (recFile, [LockAction.lockAcquire, LockAction.lockRelease])
  else if writeOk then
    (some (encode events),
     [LockAction.lockAcquire, LockAction.serialize, LockAction.diskWrite,
      LockAction.lockRelease])
  else
    (recFile,
     [LockAction.lockAcquire, LockAction.serialize, LockAction.diskWrite,
      LockAction.lockRelease])

/-- Error on a start request. -/
inductive StartError where
  | alreadyRunning
  deriving Repr, DecidableEq

/-- Externally visible effect of a successful start. -/
inductive StartAction where
  | forkRecorder
  deriving Repr, DecidableEq

/-- Durable state consulted by the command surface: the pid file's
content, `none` = absent. -/
structure SystemState where
  pidFile : Option String
  deriving Repr, DecidableEq

/-- The `Start` branch of `main` (lines 54-78) joined with the recorder's
pid-file write (line 140): if the pid file exists, report that a
recording is already in progress and exit without forking; otherwise
fork the recorder, which writes its pid to the pid file. -/
def startCmd (recorderPid : String) (st : SystemState) :
    Except StartError Unit × SystemState × List StartAction :=
  match st.pidFile with
  | some _ => (Except.error StartError.alreadyRunning, st, [])
  | none =>
    (Except.ok (), ⟨some recorderPid⟩, [StartAction.forkRecorder])

/-- Errors of `generate_gif` before any output is written. -/
inductive GifError where
  | readFailure
  | decodeFailure
  | noEvents
  deriving Repr, DecidableEq

/-- `generate_gif` (lines 267-326), with the rasterizer and animation
encoder externals abstracted: read the recording file (`none` = absent),
parse it, report on an empty log, otherwise render one frame per
`ScreenState` and create the output file. The output file is modelled by
the `ScreenState` sequence its frames render (`none` = file absent), and
is only created after the emptiness check passes. -/
def generate_gif (recordingFile : Option Json)
    (gifFile : Option (List String)) :
    Except GifError Unit × Option (List String) :=
  match recordingFile with
  | none => (Except.error GifError.readFailure, gifFile)
  | some j =>
    match decode j with
    | none => (Except.error GifError.decodeFailure, gifFile)
    | some events =>
      if events.isEmpty then (Except.error GifError.noEvents, gifFile)
      else (Except.ok (), some (replay events))

/-- The end-to-end example log of the specification:
`[{t:0, input:"echo hi\n"}, {t:50, output:"hi\n"}]`. -/
def demoLog : List TerminalEvent :=
  [⟨0, some "echo hi\n", none⟩, ⟨50, none, some "hi\n"⟩]

/-! ## Replay lemmas -/

theorem replayStep_eq (s : String) (e : TerminalEvent) :
    replayStep s e = s ++ eventPayload e := by
  obtain ⟨t, inp, out⟩ := e
  cases inp <;> cases out <;>
    simp [replayStep, eventPayload, String.append_assoc, String.append_empty]

theorem foldl_concatPayloads (log : List TerminalEvent) (s : String) :
    log.foldl (fun acc e => acc ++ eventPayload e) s = s ++ concatPayloads log := by
  induction log generalizing s with
  | nil => simp [concatPayloads, List.foldl, String.append_empty]
  | cons e rest ih =>
    show rest.foldl _ (s ++ eventPayload e) = s ++ concatPayloads (e :: rest)
    rw [ih]
    have h2 : concatPayloads (e :: rest) = eventPayload e ++ concatPayloads rest := by
      show rest.foldl _ ("" ++ eventPayload e) = _
      rw [ih ("" ++ eventPayload e), String.empty_append]
    rw [h2, String.append_assoc]

theorem concatPayloads_cons (e : TerminalEvent) (rest : List TerminalEvent) :
    concatPayloads (e :: rest) = eventPayload e ++ concatPayloads rest := by
  show rest.foldl _ ("" ++ eventPayload e) = _
  rw [foldl_concatPayloads, String.empty_append]

theorem replayAux_length (log : List TerminalEvent) (s : String) :
    (replayAux s log).length = log.length := by
  induction log generalizing s with
  | nil => rfl
  | cons e rest ih => simp [replayAux, ih]

theorem replayAux_get (log : List TerminalEvent) (s : String) (i : Nat)
    (h : i < (replayAux s log).length) :
    (replayAux s log).get ⟨i, h⟩ = s ++ concatPayloads (log.take (i + 1)) := by
  induction log generalizing s i with
  | nil => simp [replayAux] at h
  | cons e rest ih =>
    cases i with
    | zero =>
      simp [replayAux, List.get, replayStep_eq, concatPayloads_cons, concatPayloads,
        String.append_empty]
    | succ j =>
      have h' : j < (replayAux (replayStep s e) rest).length := by
        simpa [replayAux] using h
      show (replayAux (replayStep s e) rest).get ⟨j, h'⟩ = _
      rw [ih (replayStep s e) j h', replayStep_eq, String.append_assoc,
        ← concatPayloads_cons]
      rfl

/-! ## JSON round-trip lemmas -/

theorem decodeEvent_encodeEvent (e : TerminalEvent) :
    decodeEvent (encodeEvent e) = some e := by
  obtain ⟨t, inp, out⟩ := e
  cases inp <;> cases out <;> rfl

/-! ## Claim theorems -/

/-- C1: for every non-empty event log whose events each carry exactly one
payload kind, replay produces exactly one `ScreenState` per event in log
order, and the `i`-th `ScreenState` is the concatenation, in log order,
of the payloads of the events up to and including position `i`. -/
theorem replay_cumulative (L : List TerminalEvent) (hne : L ≠ [])
    (hwf : ∀ e ∈ L, exactlyOnePayload e = true) :
    (replay L).length = L.length ∧
      ∀ i (h : i < (replay L).length),
        (replay L).get ⟨i, h⟩ = concatPayloads (L.take (i + 1)) := by
  refine ⟨replayAux_length L "", fun i h => ?_⟩
  have hg := replayAux_get L "" i h
  rw [String.empty_append] at hg
  exact hg

/-- Witness for C1 at the specification's end-to-end example log. -/
theorem replay_cumulative_witness :
    demoLog ≠ [] ∧
      ((replay demoLog).length = demoLog.length ∧
        ∀ i (h : i < (replay demoLog).length),
          (replay demoLog).get ⟨i, h⟩ = concatPayloads (demoLog.take (i + 1))) :=
  ⟨by decide, replay_cumulative demoLog (by decide) (by decide)⟩

/-- C2: decoding the persisted encoding of any finite event log yields the
log again: `decode (encode L) = some L`. -/
theorem decode_encode (L : List TerminalEvent) :
    decode (encode L) = some L := by
  induction L with
  | nil => rfl
  | cons e rest ih =>
    show (encodeEvent e :: rest.map encodeEvent).mapM decodeEvent = some (e :: rest)
    rw [List.mapM_cons, decodeEvent_encodeEvent]
    have ih' : (rest.map encodeEvent).mapM decodeEvent = some rest := ih
    rw [ih']
    rfl

/-- C10: the decoder does not enforce the exactly-one-payload constraint —
an event object with both `input` and `output` non-null is accepted — and
replay appends the `input` payload before the `output` payload for such an
event. -/
theorem decode_both_payloads (t : Nat) (a b : String) :
    decode (Json.arr
        [Json.obj
          [("timestamp", Json.num t), ("input", Json.str a),
           ("output", Json.str b)]]) =
      some [⟨t, some a, some b⟩] ∧
    exactlyOnePayload ⟨t, some a, some b⟩ = false ∧
    ∀ s : String, replayStep s ⟨t, some a, some b⟩ = s ++ a ++ b :=
  ⟨rfl, rfl, fun _ => rfl⟩

/-- C3: replay of an empty event log reports `NoEvents` and leaves the
output file exactly as it was — in particular it is not created before
the emptiness check fails. -/
theorem empty_log_no_output (j : Json) (gifFile : Option (List String))
    (h : decode j = some []) :
    generate_gif (some j) gifFile = (Except.error GifError.noEvents, gifFile) := by
  simp [generate_gif, h]

/-- Witness for C3: the persisted encoding of the empty log, with no
pre-existing output file. -/
theorem empty_log_no_output_witness :
    decode (Json.arr []) = some ([] : List TerminalEvent) ∧
      generate_gif (some (Json.arr []))
          (none : Option (List String)) =
        (Except.error GifError.noEvents, none) :=
  ⟨rfl, empty_log_no_output (Json.arr []) none rfl⟩

/-- C4: the stop sequence performs kill, wait, snapshot, persist and
handle removal in that order; on success the recording file holds the
encoded final snapshot (overwriting any previous content) and the pid
file is removed; if the final persist fails, the stop operation fails
with `persistFailure`, the pid file is untouched and the recording file
keeps its previous content. -/
theorem stop_sequence_order (st : RecState) (removeOk : Bool) :
    (stopSequence true true true st).trace =
      [StopAction.kill, StopAction.wait, StopAction.snapshot,
       StopAction.persist, StopAction.removeHandle] ∧
    (stopSequence true true true st).err = none ∧
    (stopSequence true true true st).state.recordingFile =
      some (encode st.events) ∧
    (stopSequence true true true st).state.pidFile = false ∧
    (stopSequence true false removeOk st).err = some StopError.persistFailure ∧
    (stopSequence true false removeOk st).state.pidFile = st.pidFile ∧
    (stopSequence true false removeOk st).state.recordingFile =
      st.recordingFile ∧
    StopAction.removeHandle ∉ (stopSequence true false removeOk st).trace := by
  cases hp : st.proc <;>
    simp [stopSequence, killSubprocess, hp]

/-- C5: when stop runs while the subprocess has already exited,
termination is a no-op success — even when a kill of a live process would
have failed — so the final persist still occurs and the pid file is
removed. -/
theorem stop_dead_subprocess (killOk : Bool) (st : RecState)
    (h : st.proc = ProcState.exited) :
    (stopSequence killOk true true st).err = none ∧
    (stopSequence killOk true true st).state.recordingFile =
      some (encode st.events) ∧
    (stopSequence killOk true true st).state.pidFile = false ∧
    (stopSequence killOk true true st).trace =
      [StopAction.kill, StopAction.wait, StopAction.snapshot,
       StopAction.persist, StopAction.removeHandle] := by
  simp [stopSequence, killSubprocess, h]

/-- Witness for C5: a stopped state with an already-exited subprocess and
a failing kill outcome. -/
theorem stop_dead_subprocess_witness :
    (⟨ProcState.exited, demoLog, none, true⟩ : RecState).proc =
        ProcState.exited ∧
      ((stopSequence false true true
            ⟨ProcState.exited, demoLog, none, true⟩).err = none ∧
        (stopSequence false true true
            ⟨ProcState.exited, demoLog, none, true⟩).state.recordingFile =
          some (encode demoLog) ∧
        (stopSequence false true true
            ⟨ProcState.exited, demoLog, none, true⟩).state.pidFile = false ∧
        (stopSequence false true true
            ⟨ProcState.exited, demoLog, none, true⟩).trace =
          [StopAction.kill, StopAction.wait, StopAction.snapshot,
           StopAction.persist, StopAction.removeHandle]) :=
  ⟨rfl, stop_dead_subprocess false ⟨ProcState.exited, demoLog, none, true⟩ rfl⟩

/-- C6: for every chunk the writer thread reads, the bytes are forwarded
verbatim to the pty before the Input-tagged event is appended to the log,
and in every branch an append only ever happens after the forwarding —
the forwarding is never skipped because of the log append. -/
theorem input_forward_before_append (decodeBytes : List UInt8 → String)
    (now : Nat) (chunk : List UInt8) (st : CaptureState) :
    (inputStep decodeBytes now chunk true st).1.ptyInput =
      st.ptyInput ++ chunk ∧
    (inputStep decodeBytes now chunk true st).1.events =
      st.events ++ [⟨now, some (decodeBytes chunk), none⟩] ∧
    (inputStep decodeBytes now chunk true st).2 =
      [IOAction.forwardToPty chunk,
       IOAction.appendEvent ⟨now, some (decodeBytes chunk), none⟩] ∧
    ∀ writeOk : Bool, ∀ ev : TerminalEvent,
      IOAction.appendEvent ev ∈ (inputStep decodeBytes now chunk writeOk st).2 →
        (inputStep decodeBytes now chunk writeOk st).2 =
          [IOAction.forwardToPty chunk, IOAction.appendEvent ev] := by
  refine ⟨rfl, rfl, rfl, fun writeOk ev hm => ?_⟩
  cases writeOk <;> simp_all [inputStep]

/-- C7: a start request while the pid file exists fails with the
already-running error, forks nothing, and leaves the existing pid file
untouched. -/
theorem start_already_running (recorderPid p : String) (st : SystemState)
    (h : st.pidFile = some p) :
    startCmd recorderPid st = (Except.error StartError.alreadyRunning, st, []) := by
  simp [startCmd, h]

/-- Witness for C7: a start request with a pid file present. -/
theorem start_already_running_witness :
    (⟨some "42"⟩ : SystemState).pidFile = some "42" ∧
      startCmd "99" ⟨some "42"⟩ =
        (Except.error StartError.alreadyRunning, ⟨some "42"⟩, []) :=
  ⟨rfl, start_already_running "99" "42" ⟨some "42"⟩ rfl⟩

/-- C8: every event appended by either capture thread carries exactly one
payload kind matching the thread's tag, its timestamp is the capture-time
clock reading, and neither step mutates the events already in the log
(so timestamps are assigned once and never changed). -/
theorem capture_events_wellformed (decodeBytes : List UInt8 → String)
    (now : Nat) (chunk : List UInt8) (st : CaptureState) :
    (outputStep decodeBytes now chunk st).1.events =
      st.events ++ [⟨now, none, some (decodeBytes chunk)⟩] ∧
    exactlyOnePayload ⟨now, none, some (decodeBytes chunk)⟩ = true ∧
    (⟨now, none, some (decodeBytes chunk)⟩ : TerminalEvent).input = none ∧
    (inputStep decodeBytes now chunk true st).1.events =
      st.events ++ [⟨now, some (decodeBytes chunk), none⟩] ∧
    exactlyOnePayload ⟨now, some (decodeBytes chunk), none⟩ = true ∧
    (⟨now, some (decodeBytes chunk), none⟩ : TerminalEvent).output = none ∧
    (outputStep decodeBytes now chunk st).1.events.take st.events.length =
      st.events ∧
    (inputStep decodeBytes now chunk true st).1.events.take st.events.length =
      st.events := by
  refine ⟨rfl, rfl, rfl, rfl, rfl, rfl, ?_, ?_⟩ <;>
    simp [outputStep, inputStep, List.take_left]

/-- C9 counterexample: on a concrete non-empty log, the checkpoint
iteration's serialization and disk write both happen strictly between the
lock acquisition and the lock release — the lock is not released before
the persist work, contradicting the claim that the mutual-exclusion
region covers only a snapshot copy. -/
theorem checkpoint_lock_counterexample :
    ((checkpointStep true [⟨0, none, some "hi"⟩] none).2.indexOf
        LockAction.lockAcquire <
      (checkpointStep true [⟨0, none, some "hi"⟩] none).2.indexOf
        LockAction.serialize) ∧
    ((checkpointStep true [⟨0, none, some "hi"⟩] none).2.indexOf
        LockAction.serialize <
      (checkpointStep true [⟨0, none, some "hi"⟩] none).2.indexOf
        LockAction.lockRelease) ∧
    ((checkpointStep true [⟨0, none, some "hi"⟩] none).2.indexOf
        LockAction.diskWrite <
      (checkpointStep true [⟨0, none, some "hi"⟩] none).2.indexOf
        LockAction.lockRelease) := by
  decide

/-- C9 amended: the checkpoint iteration holds the event-log lock for the
whole persist attempt — on a non-empty log, serialization and the disk
write happen inside the critical section and the lock is released only
after the write; the persist itself stays best-effort: a failed write is
ignored, leaving the recording file unchanged, and a successful write
stores the encoded log. -/
theorem checkpoint_holds_lock_during_write (writeOk : Bool)
    (events : List TerminalEvent) (recFile : Option Json) :
    (checkpointStep writeOk events recFile).2 =
      (if events.isEmpty then
        [LockAction.lockAcquire, LockAction.lockRelease]
       else
        [LockAction.lockAcquire, LockAction.serialize, LockAction.diskWrite,
         LockAction.lockRelease]) ∧
    (checkpointStep false events recFile).1 = recFile ∧
    (checkpointStep true events recFile).1 =
      (if events.isEmpty then recFile else some (encode events)) := by
  cases he : events.isEmpty <;> cases writeOk <;>
    simp [checkpointStep, he]

end Demoterm
